import Mathlib

/-!
Verification of the extraction-pipeline repository (`config.py`, which bundles
the config, domain models, extraction service and extractor modules, plus
`logging_system.py` and `google_sheets_integration.py`).

Strings are modelled as `List Char` (`Str`).  Python's `re` character classes
`\w`/`\s` are modelled over their ASCII fragment (`Char.isAlphanum`, the six
ASCII whitespace characters); every concrete input appearing in a theorem is
ASCII, so the restriction is inessential.  External collaborators (the HTML
parser, the network, the clock, `random.uniform`, the sheets sink) are passed
in as explicit data: parsed-query results become record fields, per-attempt
network outcomes become an oracle function, the timestamp and jitter become
parameters.  Python `set`s are modelled as first-insertion-ordered duplicate-
free lists; every property proved about them (membership, emptiness, length
bounds) is independent of iteration order, which CPython does not specify.
-/

namespace WebStryker

abbrev Str := List Char

/-- Coerce a Lean string literal to the `List Char` representation. -/
def str (s : String) : Str := s.data

/-- The apostrophe character (`chr 39`). -/
def squote : Char := Char.ofNat 39

/-- The double-quote character (`chr 34`). -/
def dquote : Char := Char.ofNat 34

/-- ASCII fragment of Python's `\s` / `str.split()` whitespace. -/
def isSpaceChar (c : Char) : Bool :=
  c = ' ' || c = '\t' || c = '\n' || c = '\r' || c = '\x0b' || c = '\x0c'

/-- ASCII fragment of Python's `\w`: alphanumerics and underscore. -/
def isWordChar (c : Char) : Bool :=
  c.isAlphanum || c = '_'

/-- The allow-list of `clean_text`'s character strip
`re.sub(r'[^\w\s\-.,;:\'\"$£€()+]', '', text)`: a character is kept iff it
is a word character, whitespace, or one of the listed punctuation marks. -/
def isAllowedChar (c : Char) : Bool :=
  isWordChar c || isSpaceChar c ||
  c = '-' || c = '.' || c = ',' || c = ';' || c = ':' || c = squote || c = dquote ||
  c = '$' || c = '£' || c = '€' || c = '(' || c = ')' || c = '+'

/-- Python's substring test `needle in hay` for strings. -/
def substrB (needle : Str) : Str → Bool
  | [] => needle.isEmpty
  | c :: cs => needle.isPrefixOf (c :: cs) || substrB needle cs

/-- Accumulator worker for `pySplit`; `acc` is the current word, reversed. -/
def pySplitAux : Str → Str → List Str
  | [], acc => if acc.isEmpty then [] else [acc.reverse]
  | c :: cs, acc =>
    if isSpaceChar c then
      if acc.isEmpty then pySplitAux cs [] else acc.reverse :: pySplitAux cs []
    else pySplitAux cs (c :: acc)

/-- Python's `str.split()` with no argument: split on whitespace runs,
dropping empty pieces. -/
def pySplit (l : Str) : List Str := pySplitAux l []

/-- Python's `sep.join(pieces)`. -/
def pyJoin (sep : Str) : List Str → Str
  | [] => []
  | [w] => w
  | w :: ws => w ++ sep ++ pyJoin sep ws

/-- Python's `str.strip()` (whitespace from both ends). -/
def pyStrip (l : Str) : Str :=
  ((l.dropWhile isSpaceChar).reverse.dropWhile isSpaceChar).reverse

/-- Python's `s[:n]`. -/
def pyTake (n : Nat) (l : Str) : Str := l.take n

/-- Python's `str.lower()` (ASCII fragment). -/
def pyLower (l : Str) : Str := l.map Char.toLower

/-- Model of `clean_text` from `extractors_base`:
`' '.join(text.split())`, then strip disallowed characters, then `strip()`. -/
def clean_text (l : Str) : Str :=
  pyStrip (List.filter isAllowedChar (pyJoin [' '] (pySplit l)))

/-- The navigation-noise vocabulary of `is_valid_text`. -/
def navWords : List Str :=
  [str "menu", str "search", str "close", str "open", str "next",
   str "previous", str "submit"]

/-- Model of `is_valid_text` from `extractors_base`: at least 10 characters, at least
2 whitespace-separated words, and no navigation-noise substring. -/
def is_valid_text (l : Str) : Bool :=
  if l.length < 10 then false
  else if (pySplit l).length < 2 then false
  else if navWords.any (fun w => substrB w (pyLower l)) then false
  else true

/-- Insertion into the list model of a Python `set` (no-op on duplicates). -/
def insertSet (s : List Str) (x : Str) : List Str :=
  if s.contains x then s else s ++ [x]

/-! ## Domain models (`domain_models`) -/

/-- The `ProductEntity` dataclass.  `price` is a Python float, modelled as `ℚ`
(it is only ever compared with `0` and rendered). -/
structure ProductEntity where
  product_name : Str := []
  product_description : Str := []
  main_category : Str := []
  sub_category : Str := []
  price : ℚ := 0
  currency : Str := str "USD"
  features : List Str := []
  specifications : List (Str × Str) := []
  images : List Str := []
  url : Str := []
deriving DecidableEq

/-- The `CompanyEntity` dataclass.  `extraction_date` is produced by the external
clock at construction; it defaults to the empty string here and is never read
by the code under verification. -/
structure CompanyEntity where
  url : Str := []
  company_name : Str := []
  company_type : Str := []
  company_description : Str := []
  products : List ProductEntity := []
  emails : List Str := []
  phones : List Str := []
  addresses : List Str := []
  extraction_date : Str := []
deriving DecidableEq

/-- Rendering of a Python float-and-currency f-string `f"{price} {currency}"`
(the numeric rendering itself is abstracted by `toString` on `ℚ`). -/
def renderPrice (p : ℚ) (cur : Str) : Str := (toString p).data ++ ' ' :: cur

/-- Python `repr` of a string value as it appears inside `str(dict)`
(single-quoted; escaping is not modelled, no rendered value contains
a quote). -/
def pyRepr (s : Str) : Str := squote :: s ++ [squote]

/-- One entry of `format_for_sheets`' `additional_products`:
`str({'name': ..., 'category': ..., 'price': ...})`. -/
def summarizeProduct (p : ProductEntity) : Str :=
  '\x7b' :: pyRepr (str "name") ++ str ": " ++ pyRepr p.product_name ++
  str ", " ++ pyRepr (str "category") ++ str ": " ++ pyRepr p.main_category ++
  str ", " ++ pyRepr (str "price") ++ str ": " ++
  pyRepr (if 0 < p.price then renderPrice p.price p.currency else str "N/A") ++
  ['\x7d']

/-- Model of `ExtractionService.format_for_sheets`, transcribed field by field; `now`
is the timestamp the external clock returns for
`datetime.now().isoformat()`. -/
def format_for_sheets (c : CompanyEntity) (now : Str) : List Str :=
  let primary? := c.products.head?
  let additional : List Str :=
    if 1 < c.products.length then (c.products.drop 1).map summarizeProduct else []
  [ c.url,
    c.company_name,
    c.company_type,
    if c.company_description = [] then [] else pyTake 500 c.company_description,
    pyJoin (str "; ") c.emails,
    pyJoin (str "; ") c.phones,
    pyJoin (str "; ") c.addresses,
    (match primary? with
     | some p => p.product_name
     | none => []),
    (match primary? with
     | some p => p.main_category
     | none => []),
    (match primary? with
     | some p => if 0 < p.price then renderPrice p.price p.currency else str "N/A"
     | none => str "N/A"),
    (match primary? with
     | some p =>
       if p.product_description = [] then [] else pyTake 500 p.product_description
     | none => []),
    (match primary? with
     | some p => if p.features = [] then [] else pyJoin (str "; ") (p.features.take 5)
     | none => []),
    (match primary? with
     | some p =>
       if p.specifications = [] then []
       else pyJoin (str "; ")
         ((p.specifications.take 3).map (fun kv => kv.1 ++ str ": " ++ kv.2))
     | none => []),
    pyJoin (str " | ") additional,
    now ]

/-- Modelled from the spec: the §6 export-row contract, written from the
spec's own field list ("ordered list of 15 string fields, in this exact
order: URL, Company Name, Company Type, Company Description(≤500), Contact
Emails(joined), Contact Phones(joined), Contact Addresses(joined), Product
Name, Product Category, Product Price(\"N/A\" if unset), Product
Description(≤500), Product Features(top 5, joined), Product Specifications
(top 3, joined as \"k: v\"), Additional Products(joined with \" | \"),
Extraction Timestamp"); product fields are blank when no primary product
exists, except the price, which reads "N/A" when unset. -/
def specExportRow (c : CompanyEntity) (now : Str) : List Str :=
  let primary? := c.products.head?
  [ c.url,
    c.company_name,
    c.company_type,
    pyTake 500 c.company_description,
    pyJoin (str "; ") c.emails,
    pyJoin (str "; ") c.phones,
    pyJoin (str "; ") c.addresses,
    (primary?.map (fun p => p.product_name)).getD [],
    (primary?.map (fun p => p.main_category)).getD [],
    (primary?.map (fun p =>
       if 0 < p.price then renderPrice p.price p.currency else str "N/A")).getD
      (str "N/A"),
    (primary?.map (fun p => pyTake 500 p.product_description)).getD [],
    (primary?.map (fun p => pyJoin (str "; ") (p.features.take 5))).getD [],
    (primary?.map (fun p => pyJoin (str "; ")
       ((p.specifications.take 3).map (fun kv => kv.1 ++ str ": " ++ kv.2)))).getD [],
    pyJoin (str " | ") ((c.products.drop 1).map summarizeProduct),
    now ]

/-! ## `ContactExtractor.extract` (`extractors_base`)

The three regex-driven scans of `ContactExtractor.extract`.  `re.findall` is
modelled by a leftmost, non-overlapping scan (`scanAll`); the two fixed
patterns are compiled by hand into backtracking matchers below, each
returning the length of the match at the head of the input, if any. -/

/-- Local-part class of the email pattern, `[a-zA-Z0-9._%+-]`. -/
def isLocalChar (c : Char) : Bool :=
  c.isAlphanum || c = '.' || c = '_' || c = '%' || c = '+' || c = '-'

/-- Domain class of the email pattern, `[a-zA-Z0-9.-]`. -/
def isDomainChar (c : Char) : Bool :=
  c.isAlphanum || c = '.' || c = '-'

/-- Greedy `[a-zA-Z]{2,}` at the head of the input (nothing follows it in the
pattern, so the maximal run is taken). -/
def matchTld (r : Str) : Option Nat :=
  let run := r.takeWhile (fun c => c.isAlpha)
  if 2 ≤ run.length then some run.length else none

/-- Backtracking for `[a-zA-Z0-9.-]+\.[a-zA-Z]{2,}`: the `+` first takes the
maximal class run and gives characters back one at a time; a candidate
length `m+1` succeeds when the next character is a literal `.` followed by
at least two letters. -/
def emailDomainAux (r : Str) : Nat → Option Nat
  | 0 => none
  | m + 1 =>
    match r.get? (m + 1) with
    | some '.' =>
      match matchTld (r.drop (m + 2)) with
      | some t => some (m + 2 + t)
      | none => emailDomainAux r m
    | _ => emailDomainAux r m

/-- Match `[a-zA-Z0-9.-]+\.[a-zA-Z]{2,}` at the head of `r`. -/
def matchEmailDomain (r : Str) : Option Nat :=
  emailDomainAux r (r.takeWhile isDomainChar).length

/-- Match the email pattern `[a-zA-Z0-9._%+-]+@[a-zA-Z0-9.-]+\.[a-zA-Z]{2,}`
at the head of `l` (the local-part run never backtracks: `@` is not in its
class, so only the maximal run can be followed by `@`). -/
def matchEmailAt (l : Str) : Option Nat :=
  let loc := l.takeWhile isLocalChar
  if loc.length = 0 then none
  else
    match l.drop loc.length with
    | '@' :: r =>
      match matchEmailDomain r with
      | some d => some (loc.length + 1 + d)
      | none => none
    | _ => none

/-- Fuel-bounded worker for `scanAll`; fuel `l.length` suffices because every
step consumes at least one character. -/
def scanAllF (matchAt : Str → Option Nat) : Nat → Str → List Str
  | 0, _ => []
  | _ + 1, [] => []
  | fuel + 1, c :: cs =>
    match matchAt (c :: cs) with
    | some (n + 1) => (c :: cs.take n) :: scanAllF matchAt fuel (cs.drop n)
    | _ => scanAllF matchAt fuel cs

/-- Model of `re.findall` for a pattern whose matcher is `matchAt`: leftmost,
non-overlapping matches in order. -/
def scanAll (matchAt : Str → Option Nat) (l : Str) : List Str :=
  scanAllF matchAt l.length l

/-- The noise substrings of the email filter. -/
def emailNoise : List Str := [str "example", str "test", str "user", str "email"]

/-- The email block of `ContactExtractor.extract`: find all matches, keep
those containing `@` and `.`, drop any whose lowercasing contains a noise
substring, and collect the lowercased survivors into a set. -/
def extract_emails (content : Str) : List Str :=
  (scanAll matchEmailAt content).foldl
    (fun acc email =>
      if substrB (str "@") email && substrB (str ".") email then
        if !(emailNoise.any (fun w => substrB w (pyLower email))) then
          insertSet acc (pyLower email)
        else acc
      else acc)
    []

/-- Separator class `[-.\s]` of the phone pattern. -/
def isSepChar (c : Char) : Bool :=
  c = '-' || c = '.' || isSpaceChar c

/-- Consume exactly `n` digits (`\d{n}`), returning the rest of the input. -/
def matchDigitsN : Nat → Str → Option Str
  | 0, r => some r
  | _ + 1, [] => none
  | n + 1, c :: cs => if c.isDigit then matchDigitsN n cs else none

/-- Consume one optional character matching `p` (`X?`).  For the phone
pattern's optionals no backtracking is needed: each optional's class is
disjoint from the required digit (or separator-then-digit) that follows, so
declining the character after greedily accepting it can never succeed. -/
def optConsume (p : Char → Bool) : Str → Str × Nat
  | [] => ([], 0)
  | c :: cs => if p c then (cs, 1) else (c :: cs, 0)

/-- Match `\(?\d{3}\)?[-.\s]?\d{3}[-.\s]?\d{4}` at the head of `l`. -/
def corePhone (l : Str) : Option Nat :=
  let (r1, a) := optConsume (fun c => c = '(') l
  match matchDigitsN 3 r1 with
  | none => none
  | some r2 =>
    let (r3, b) := optConsume (fun c => c = ')') r2
    let (r4, c3) := optConsume isSepChar r3
    match matchDigitsN 3 r4 with
    | none => none
    | some r5 =>
      let (r6, d) := optConsume isSepChar r5
      match matchDigitsN 4 r6 with
      | none => none
      | some _ => some (a + 3 + b + c3 + 3 + d + 4)

/-- Match `(?:\+1[-.\s]?)?\(?\d{3}\)?[-.\s]?\d{3}[-.\s]?\d{4}` at the head of
`l`.  If the input starts with `+` the optional `+1` group either matches or
the whole pattern fails (`+` fits no later class), so no group-level
backtracking is needed. -/
def matchPhoneAt (l : Str) : Option Nat :=
  match l with
  | '+' :: '1' :: r =>
    let (r2, s) := optConsume isSepChar r
    (corePhone r2).map (fun n => 2 + s + n)
  | _ => corePhone l

/-- Model of `re.sub(r'[-.\s()]', '', phone)`. -/
def stripPhoneChars (l : Str) : Str :=
  l.filter (fun c => !(c = '-' || c = '.' || isSpaceChar c || c = '(' || c = ')'))

/-- The phone block of `ContactExtractor.extract`: find all matches, strip
separators, keep candidates with at least 10 characters left, normalize the
leading `+1`, deduplicate via a set, and keep at most 5. -/
def extract_phones (content : Str) : List Str :=
  let valid :=
    (scanAll matchPhoneAt content).foldl
      (fun acc phone =>
        let cleaned := stripPhoneChars phone
        if 10 ≤ cleaned.length then
          let cleaned :=
            if cleaned.head? = some '1' then '+' :: cleaned
            else if cleaned.head? = some '+' then cleaned
            else '+' :: '1' :: cleaned
          insertSet acc cleaned
        else acc)
      []
  valid.take 5

/-- The address block of `ContactExtractor.extract`: `cands` are the texts of
the elements whose class contains "address" or "location" (an external
parser query), in document order; `init` is the company's current address
list.  A cleaned candidate is appended iff it is longer than 10 characters
and no stored address occurs in it as a substring (Python's `addr in
address`). -/
def extract_addresses (cands : List Str) (init : List Str) : List Str :=
  cands.foldl
    (fun acc t =>
      let address := clean_text t
      if 10 < address.length ∧ acc.any (fun addr => substrB addr address) = false
      then acc ++ [address]
      else acc)
    init


/-! ## `CompanyExtractor.extract` (`extractors_base`) -/

/-- Results of the parser queries `CompanyExtractor.extract` makes (the HTML
parser is an external collaborator): the `<title>` text, the `content`
attribute of the first `<meta name="description">` / `<meta
property="og:description">` tag (the empty string when the tag exists
without the attribute), and the text of the first `div`/`section` whose
class contains "description", "overview" or "about". -/
structure CompanyDoc where
  title : Option Str := none
  metaDescription : Option Str := none
  ogDescription : Option Str := none
  classDescription : Option Str := none

/-- The dash characters of `re.sub(r'\s*[-–—]\s*.*$', '', company_name)`. -/
def dashChars : List Char := ['-', '–', '—']

/-- Effect of `re.sub(r'\s*[-–—]\s*.*$', '', s)`: drop everything from the
first dash on, together with the whitespace run immediately before it (the
leftmost match of the pattern starts exactly there).  Modelled for inputs
without an embedded newline after the dash, which is where `.*$` covers the
whole tail; no claim depends on this function. -/
def stripDashSuffix (l : Str) : Str :=
  match l.findIdx? (fun c => dashChars.contains c) with
  | none => l
  | some j => ((l.take j).reverse.dropWhile isSpaceChar).reverse

/-- Model of `CompanyExtractor.extract`, transcribed: fixed names for the three known
domains, otherwise a title-derived name; description from the meta tags or
the class-matched element; and finally `company.company_type =
'Technology'`. -/
def company_extract (doc : CompanyDoc) (url : Str) (c : CompanyEntity) :
    CompanyEntity :=
  let c :=
    if substrB (str "apple.com") url then { c with company_name := str "Apple" }
    else if substrB (str "microsoft.com") url then
      { c with company_name := str "Microsoft" }
    else if substrB (str "samsung.com") url then
      { c with company_name := str "Samsung" }
    else
      match doc.title with
      | some t =>
        let nm := pyStrip (t.takeWhile (fun ch => ch ≠ '|'))
        { c with company_name := clean_text (stripDashSuffix nm) }
      | none => c
  let description : Option Str :=
    match doc.metaDescription with
    | some d => some d
    | none =>
      match doc.ogDescription with
      | some d => some d
      | none => doc.classDescription
  let c :=
    match description with
    | some d =>
      if d = [] then c
      else { c with company_description := pyTake 500 (clean_text d) }
    | none => c
  { c with company_type := str "Technology" }

/-! ## `ProductExtractor` (`extractors_base`) -/

/-- Results of the parser queries made inside one generic product section
(a `section`/`div`/`article` whose class contains "product", "item" or
"model"): the first `h1`/`h2`/`h3` text, the first `p`/`div` whose class
contains "description", and the `li`/`div` elements whose class contains
"feature" or "spec", in document order. -/
structure ProductSection where
  heading : Option Str := none
  description : Option Str := none
  features : List Str := []

/-- Results of the parser queries the four product-extraction paths make. -/
structure ProductDoc where
  appleHeadline : Option Str := none
  appleFeatures : List Str := []
  msDescription : Option Str := none
  msFeatures : List Str := []
  samsungDescription : Option Str := none
  samsungFeatures : List Str := []
  sections : List ProductSection := []

/-- The shared "get product description" block of the four product paths:
clean the queried element's text and store it only when it is valid. -/
def applyDescription (o : Option Str) (q : ProductEntity) : ProductEntity :=
  match o with
  | some t =>
    let d := clean_text t
    if is_valid_text d then { q with product_description := d } else q
  | none => q

/-- The shared feature loop: clean each of the first five feature elements
and keep the valid ones, in document order. -/
def takeFeatures (feats : List Str) : List Str :=
  ((feats.take 5).map clean_text).filter is_valid_text

/-- Model of `ProductExtractor._extract_apple_product`, returning the products it
appends to `company.products` (one or none). -/
def extract_apple_product (doc : ProductDoc) (url : Str) : List ProductEntity :=
  let lurl := pyLower url
  let p : ProductEntity := {}
  let p :=
    if substrB (str "iphone") lurl then
      if substrB (str "15-pro") lurl then
        { p with product_name := str "iPhone 15 Pro", main_category := str "Smartphones" }
      else { p with product_name := str "iPhone", main_category := str "Smartphones" }
    else if substrB (str "macbook") lurl then
      { p with product_name := str "MacBook", main_category := str "Laptops" }
    else if substrB (str "ipad") lurl then
      { p with product_name := str "iPad", main_category := str "Tablets" }
    else p
  let p := applyDescription doc.appleHeadline p
  let p := { p with features := takeFeatures doc.appleFeatures }
  if p.product_name ≠ [] then [{ p with url := url }] else []

/-- Model of `ProductExtractor._extract_microsoft_product` (note: `'365' in url` is
checked against the raw URL, the other substrings against its
lowercasing). -/
def extract_microsoft_product (doc : ProductDoc) (url : Str) : List ProductEntity :=
  let lurl := pyLower url
  let p : ProductEntity := {}
  let p :=
    if substrB (str "365") url then
      { p with product_name := str "Microsoft 365", main_category := str "Software",
               sub_category := str "Productivity Suite" }
    else if substrB (str "surface") lurl then
      { p with product_name := str "Surface", main_category := str "Computers" }
    else if substrB (str "windows") lurl then
      { p with product_name := str "Windows", main_category := str "Software",
               sub_category := str "Operating System" }
    else p
  let p := applyDescription doc.msDescription p
  let p := { p with features := takeFeatures doc.msFeatures }
  if p.product_name ≠ [] then [{ p with url := url }] else []

/-- Model of `ProductExtractor._extract_samsung_product`. -/
def extract_samsung_product (doc : ProductDoc) (url : Str) : List ProductEntity :=
  let lurl := pyLower url
  let p : ProductEntity := {}
  let p :=
    if substrB (str "galaxy") lurl && substrB (str "s23") lurl then
      { p with product_name := str "Galaxy S23 Ultra", main_category := str "Smartphones",
               sub_category := str "Android Phones" }
    else p
  let p := applyDescription doc.samsungDescription p
  let p := { p with features := takeFeatures doc.samsungFeatures }
  if p.product_name ≠ [] then [{ p with url := url }] else []

/-- One iteration of `_extract_generic_product`'s section loop: the section
is skipped (`continue`) unless its first heading cleans to valid text. -/
def extract_generic_section (url : Str) (s : ProductSection) : List ProductEntity :=
  let p : ProductEntity := {}
  let p :=
    match s.heading with
    | some t =>
      let nm := clean_text t
      if is_valid_text nm then { p with product_name := nm } else p
    | none => p
  if p.product_name = [] then []
  else
    let p := applyDescription s.description p
    let p := { p with features := takeFeatures s.features }
    [{ p with url := url }]

/-- Model of `ProductExtractor._extract_generic_product`: at most the first two
product sections, each contributing via `extract_generic_section`. -/
def extract_generic_product (doc : ProductDoc) (url : Str) : List ProductEntity :=
  ((doc.sections.take 2).map (extract_generic_section url)).flatten

/-- Model of `ProductExtractor.extract`: dispatch on the URL and append the resulting
products to the company. -/
def product_extract (doc : ProductDoc) (url : Str) (c : CompanyEntity) :
    CompanyEntity :=
  let newProducts :=
    if substrB (str "apple.com") url then extract_apple_product doc url
    else if substrB (str "microsoft.com") url then extract_microsoft_product doc url
    else if substrB (str "samsung.com") url then extract_samsung_product doc url
    else extract_generic_product doc url
  { c with products := c.products ++ newProducts }

/-! ## `ExtractionService.fetch_content` (`extraction_service`) -/

/-- Outcome of one `requests.get` attempt: a response with a status code and
body text, or a raised `requests.RequestException` with a message. -/
inductive FetchOutcome where
  | resp (status : Nat) (body : Str)
  | raised (msg : Str)
deriving DecidableEq

/-- Whether an attempt succeeds, i.e. returns HTTP 200. -/
def attemptSucceeds (o : FetchOutcome) : Bool :=
  match o with
  | .resp status _ => status == 200
  | .raised _ => false

/-- One `log_repository.log_error` record. -/
structure LogEntry where
  url : Str
  extraction_id : Str
  category : Str
  message : Str

/-- Observable behaviour of one `fetch_content` call: its return value, the
error-log entries it emitted, and the durations of the `time.sleep` calls it
performed, each in emission order. -/
structure FetchResult where
  content : Option Str
  logs : List LogEntry
  sleeps : List ℚ

/-- Rendering `str(n)` for the attempt counter and status code. -/
def natStr (n : Nat) : Str := (toString n).data

/-- The retry loop of `fetch_content`: `i` is the current 0-indexed attempt,
the second argument the number of attempts left; `outcome` is the network
oracle and `jitter` the value `random.uniform(0, 1)` returns on each
attempt.  A 200 response returns the body at once; any other status or a
request exception logs one `FetchError` entry and sleeps `2**i + jitter i`
before the next attempt (also after the last one). -/
def fetchLoop (url eid : Str) (outcome : Nat → FetchOutcome) (jitter : Nat → ℚ) :
    Nat → Nat → FetchResult
  | _, 0 => { content := none, logs := [], sleeps := [] }
  | i, n + 1 =>
    match outcome i with
    | .resp status body =>
      if status == 200 then { content := some body, logs := [], sleeps := [] }
      else
        let rest := fetchLoop url eid outcome jitter (i + 1) n
        { content := rest.content,
          logs := { url := url, extraction_id := eid, category := str "FetchError",
                    message := str "Failed to fetch content: HTTP " ++ natStr status }
                  :: rest.logs,
          sleeps := ((2 : ℚ) ^ i + jitter i) :: rest.sleeps }
    | .raised m =>
      let rest := fetchLoop url eid outcome jitter (i + 1) n
      { content := rest.content,
        logs := { url := url, extraction_id := eid, category := str "FetchError",
                  message := str "Fetch attempt " ++ natStr (i + 1) ++
                             str " failed: " ++ m }
                :: rest.logs,
        sleeps := ((2 : ℚ) ^ i + jitter i) :: rest.sleeps }

/-- Model of `fetch_content` with `maxRetries` attempts (`MAX_RETRIES` defaults
to 3). -/
def fetch_content (url eid : Str) (outcome : Nat → FetchOutcome)
    (jitter : Nat → ℚ) (maxRetries : Nat) : FetchResult :=
  fetchLoop url eid outcome jitter 0 maxRetries

/-! ## `ExtractionService.process_url` (`extraction_service`) -/

/-- A raised Python `Exception` (the class the top-level handler catches),
reduced to its message. -/
structure PyExn where
  msg : Str

/-- The value `process_url` returns: `{"success": True, "data": ...,
"duration_ms": ...}` or `{"success": False, "error": ...}`. -/
inductive ProcResult where
  | ok (data : CompanyEntity) (duration_ms : Nat)
  | err (msg : Str)
deriving DecidableEq

/-- Outcomes of the effectful sub-steps of one `process_url` run, each an
`Except` so that the step can raise: the `validate_url` verdict, the
`fetch_content` result (`none` = attempts exhausted), the three extractor
stages as company transformers, the `format_for_sheets`/`add_row` step
(`add_row` swallows sink errors internally), and the measured duration. -/
structure PipelineOracle where
  urlValid : Bool
  fetch : Except PyExn (Option Str)
  companyStep : Except PyExn (CompanyEntity → CompanyEntity)
  contactStep : Except PyExn (CompanyEntity → CompanyEntity)
  productStep : Except PyExn (CompanyEntity → CompanyEntity)
  formatStep : Except PyExn (List Str)
  durationMs : Nat

/-- Model of `ExtractionService.extract_data`: fetch, bail out with `None` on missing
or empty content (`if not content`), run the three extractors over a fresh
company carrying the URL, format and forward the row, return the company. -/
def extract_data (o : PipelineOracle) (url : Str) :
    Except PyExn (Option CompanyEntity) := do
  let content ← o.fetch
  match content with
  | none => return none
  | some body =>
    if body.isEmpty then return none
    else do
      let f1 ← o.companyStep
      let f2 ← o.contactStep
      let f3 ← o.productStep
      let company := f3 (f2 (f1 { ({} : CompanyEntity) with url := url }))
      let _row ← o.formatStep
      return some company

/-- The body of `process_url` inside its `try`: validation failure and
extraction failure return failure dictionaries; otherwise the run succeeds
with the company data and duration.  A `.error` value is an exception
escaping the body. -/
def process_url_body (o : PipelineOracle) (url : Str) :
    Except PyExn ProcResult := do
  if !o.urlValid then return .err (str "Invalid URL format")
  else do
    let company? ← extract_data o url
    match company? with
    | none => return .err (str "Failed to extract data from URL")
    | some company => return .ok company o.durationMs

/-- Model of `process_url`: the body wrapped in the top-level `except Exception`
handler, which converts any escaped exception into
`{"success": False, "error": f"Error processing URL: {e}"}`. -/
def process_url (o : PipelineOracle) (url : Str) : ProcResult :=
  match process_url_body o url with
  | .ok r => r
  | .error e => .err (str "Error processing URL: " ++ e.msg)

/-! ## Theorems -/

/-- C1: for every URL and extraction id (and every behaviour of the
effectful sub-steps), `process_url` returns exactly one of a success result
or a failure result, and any exception escaping the body — raised during
validation, fetching, extraction or export formatting — is converted by the
top-level handler into a failure result carrying
`"Error processing URL: ..."` rather than propagating. -/
theorem process_url_total_and_catches (o : PipelineOracle) (url : Str) :
    ((∃ d ms, process_url o url = .ok d ms) ∨ (∃ m, process_url o url = .err m)) ∧
    (∀ e, process_url_body o url = .error e →
      process_url o url = .err (str "Error processing URL: " ++ e.msg)) := by
  constructor
  · cases h : process_url o url with
    | ok d ms => exact .inl ⟨d, ms, rfl⟩
    | err m => exact .inr ⟨m, rfl⟩
  · intro e he
    simp [process_url, he]

/-- Witness for C1: a fetch step that raises `boom` yields a failure result
with the handler's message. -/
theorem process_url_total_and_catches_witness :
    process_url
      { urlValid := true, fetch := .error ⟨str "boom"⟩, companyStep := .ok id,
        contactStep := .ok id, productStep := .ok id, formatStep := .ok [],
        durationMs := 0 } (str "https://x.example") =
      .err (str "Error processing URL: boom") := by
  have h :=
    (process_url_total_and_catches
      { urlValid := true, fetch := .error ⟨str "boom"⟩, companyStep := .ok id,
        contactStep := .ok id, productStep := .ok id, formatStep := .ok [],
        durationMs := 0 } (str "https://x.example")).2 ⟨str "boom"⟩ rfl
  exact h.trans (by decide)

/-- C2 counterexample: on the input named by the claim,
`jane.doe@example-company.org` is NOT in the extracted email set — its
domain `example-company.org` contains the noise substring `example`, so the
filter rejects it. -/
theorem email_example_company_not_extracted :
    str "jane.doe@example-company.org" ∉
      extract_emails
        (str "contact: jane.doe@example-company.org and test@example.com") := by
  decide

/-- C2 amended: on that input the extracted email set is empty — both
regex matches contain a noise substring (`example` occurs in
`jane.doe@example-company.org` as well as in `test@example.com`), and the
filter rejects any address containing `example`, `test`, `user` or
`email`. -/
theorem email_noise_filter_rejects_both :
    extract_emails
      (str "contact: jane.doe@example-company.org and test@example.com") = [] ∧
    substrB (str "example") (pyLower (str "jane.doe@example-company.org")) = true ∧
    substrB (str "test") (pyLower (str "test@example.com")) = true := by
  decide

/-- C3 counterexample: `clean_text` is not idempotent.  On `"a ~ b"` the
first pass strips `~` after whitespace collapsing has already happened,
leaving the double space in `"a  b"`, which a second pass collapses. -/
theorem clean_text_not_idempotent :
    clean_text (clean_text (str "a ~ b")) ≠ clean_text (str "a ~ b") := by
  decide

/-- C7 counterexample: on a URL matching none of the known domains (the
generic path) the extractor still sets the company type to `Technology`
rather than leaving it unset — the assignment is unconditional. -/
theorem company_type_set_on_generic_path :
    substrB (str "apple.com") (str "https://acme.io/page") = false ∧
    substrB (str "microsoft.com") (str "https://acme.io/page") = false ∧
    substrB (str "samsung.com") (str "https://acme.io/page") = false ∧
    (company_extract {} (str "https://acme.io/page") {}).company_type =
      str "Technology" ∧
    str "Technology" ≠ ([] : Str) := by
  decide

/-- C7 amended: `company_extract` sets `company_type` to the fixed value
`Technology` on every path — for the known domains and on the generic path
alike. -/
theorem company_type_always_technology (doc : CompanyDoc) (url : Str)
    (c : CompanyEntity) :
    (company_extract doc url c).company_type = str "Technology" := rfl

/-- C9: `"(415) 555-2671"` and `"1-415-555-2671"` both normalize to
`+14155552671` (the second via the regex match `415-555-2671`, which drops
the leading `1-`), an input containing both collapses to a single entry, and
the resulting phone list never exceeds 5 entries. -/
theorem phone_normalization_and_cap :
    extract_phones (str "(415) 555-2671") = [str "+14155552671"] ∧
    extract_phones (str "1-415-555-2671") = [str "+14155552671"] ∧
    extract_phones (str "(415) 555-2671 or 1-415-555-2671") =
      [str "+14155552671"] ∧
    ∀ content : Str, (extract_phones content).length ≤ 5 := by
  refine ⟨by decide, by decide, by decide, ?_⟩
  intro content
  exact List.length_take_le 5 _

/-- C6 counterexample: `"12 Baker Street London"` cleans to a string longer
than 10 characters that differs from the single stored address
`"12 Baker Street"`, yet it is not appended — the dedup test is substring
containment (`addr in address`), not exact-string comparison, and the
stored address occurs inside the candidate. -/
theorem address_superstring_not_appended :
    clean_text (str "12 Baker Street London") ≠ str "12 Baker Street" ∧
    10 < (clean_text (str "12 Baker Street London")).length ∧
    extract_addresses [str "12 Baker Street", str "12 Baker Street London"] [] =
      [str "12 Baker Street"] := by
  decide

/-- Behaviour of the retry loop when every attempt in range fails: no
content, one log entry per attempt, and one backoff sleep of
`2**attempt + jitter` per attempt. -/
theorem fetchLoop_all_fail (url eid : Str) (outcome : Nat → FetchOutcome)
    (jitter : Nat → ℚ) :
    ∀ (n i : Nat), (∀ j, j < n → attemptSucceeds (outcome (i + j)) = false) →
      (fetchLoop url eid outcome jitter i n).content = none ∧
      (fetchLoop url eid outcome jitter i n).logs.length = n ∧
      (fetchLoop url eid outcome jitter i n).sleeps =
        (List.range n).map (fun j => (2 : ℚ) ^ (i + j) + jitter (i + j)) := by
  intro n
  induction n with
  | zero => intro i _; exact ⟨rfl, rfl, rfl⟩
  | succ m ih =>
    intro i h
    have h0 : attemptSucceeds (outcome i) = false := by
      simpa using h 0 (Nat.succ_pos m)
    have hshift : ∀ j, j < m → attemptSucceeds (outcome (i + 1 + j)) = false := by
      intro j hj
      have := h (j + 1) (by omega)
      rwa [show i + (j + 1) = i + 1 + j by omega] at this
    have hrest := ih (i + 1) hshift
    have hrange :
        (List.range (m + 1)).map (fun j => (2 : ℚ) ^ (i + j) + jitter (i + j)) =
          ((2 : ℚ) ^ i + jitter i) ::
            (List.range m).map (fun j => (2 : ℚ) ^ (i + 1 + j) + jitter (i + 1 + j)) := by
      rw [List.range_succ_eq_map, List.map_cons, List.map_map]
      refine congrArg₂ _ (by simp) (List.map_congr_left ?_)
      intro j _
      simp only [Function.comp_apply]
      rw [show i + Nat.succ j = i + 1 + j by omega]
    cases ho : outcome i with
    | resp status body =>
      have hs : (status == 200) = false := by
        rw [ho] at h0; simpa [attemptSucceeds] using h0
      simp only [fetchLoop, ho, hs, Bool.false_eq_true, if_false]
      exact ⟨hrest.1, by simpa using hrest.2.1, by rw [hrange]; simpa using hrest.2.2⟩
    | raised m' =>
      simp only [fetchLoop, ho]
      exact ⟨hrest.1, by simpa using hrest.2.1, by rw [hrange]; simpa using hrest.2.2⟩

/-- Behaviour of the retry loop when attempt `k` (0-indexed, in range) is
the first to return HTTP 200: the body is returned at once and exactly the
`k` failed attempts before it were logged. -/
theorem fetchLoop_success (url eid : Str) (outcome : Nat → FetchOutcome)
    (jitter : Nat → ℚ) :
    ∀ (k n i : Nat) (body : Str), k < n →
      (∀ j, j < k → attemptSucceeds (outcome (i + j)) = false) →
      outcome (i + k) = .resp 200 body →
      (fetchLoop url eid outcome jitter i n).content = some body ∧
      (fetchLoop url eid outcome jitter i n).logs.length = k := by
  intro k
  induction k with
  | zero =>
    intro n i body hn _ hk
    obtain ⟨m, rfl⟩ : ∃ m, n = m + 1 := ⟨n - 1, by omega⟩
    rw [Nat.add_zero] at hk
    simp [fetchLoop, hk]
  | succ k ih =>
    intro n i body hn h hk
    obtain ⟨m, rfl⟩ : ∃ m, n = m + 1 := ⟨n - 1, by omega⟩
    have h0 : attemptSucceeds (outcome i) = false := by
      simpa using h 0 (Nat.succ_pos k)
    have hshift : ∀ j, j < k → attemptSucceeds (outcome (i + 1 + j)) = false := by
      intro j hj
      have := h (j + 1) (by omega)
      rwa [show i + (j + 1) = i + 1 + j by omega] at this
    have hk' : outcome (i + 1 + k) = .resp 200 body := by
      rwa [show i + (k + 1) = i + 1 + k by omega] at hk
    have hrest := ih m (i + 1) body (by omega) hshift hk'
    cases ho : outcome i with
    | resp status body' =>
      have hs : (status == 200) = false := by
        rw [ho] at h0; simpa [attemptSucceeds] using h0
      simp only [fetchLoop, ho, hs, Bool.false_eq_true, if_false]
      exact ⟨hrest.1, by simpa using hrest.2⟩
    | raised m' =>
      simp only [fetchLoop, ho]
      exact ⟨hrest.1, by simpa using hrest.2⟩

/-- C5: if every attempt fails (non-200 status or transport error),
`fetch_content` returns no content — a normal value, not an exception —
after exactly the configured number of attempts, with exactly one error-log
entry per failed attempt; and a 200 response on any attempt returns its body
immediately, with log entries only for the failed attempts before it and
none for the successful one. -/
theorem fetch_content_exhaustion_and_success (url eid : Str)
    (outcome : Nat → FetchOutcome) (jitter : Nat → ℚ) (n : Nat) :
    ((∀ j, j < n → attemptSucceeds (outcome j) = false) →
      (fetch_content url eid outcome jitter n).content = none ∧
      (fetch_content url eid outcome jitter n).logs.length = n) ∧
    (∀ k body, k < n → (∀ j, j < k → attemptSucceeds (outcome j) = false) →
      outcome k = .resp 200 body →
      (fetch_content url eid outcome jitter n).content = some body ∧
      (fetch_content url eid outcome jitter n).logs.length = k) := by
  constructor
  · intro h
    have := fetchLoop_all_fail url eid outcome jitter n 0 (by simpa using h)
    exact ⟨this.1, this.2.1⟩
  · intro k body hk h hsucc
    exact fetchLoop_success url eid outcome jitter k n 0 body hk
      (by simpa using h) (by simpa using hsucc)

/-- Witness for C5: with `MAX_RETRIES = 3` and a network that always raises,
the result is no content and exactly 3 log entries; with a network that
fails twice and then returns 200, the body comes back with exactly 2 log
entries. -/
theorem fetch_content_exhaustion_and_success_witness :
    ((fetch_content (str "https://x.example") (str "id")
        (fun _ => .raised (str "timeout")) (fun _ => 0) 3).content = none ∧
      (fetch_content (str "https://x.example") (str "id")
        (fun _ => .raised (str "timeout")) (fun _ => 0) 3).logs.length = 3) ∧
    ((fetch_content (str "https://x.example") (str "id")
        (fun i => if i < 2 then .raised (str "timeout") else .resp 200 (str "body"))
        (fun _ => 0) 3).content = some (str "body") ∧
      (fetch_content (str "https://x.example") (str "id")
        (fun i => if i < 2 then .raised (str "timeout") else .resp 200 (str "body"))
        (fun _ => 0) 3).logs.length = 2) := by
  constructor
  · exact (fetch_content_exhaustion_and_success (str "https://x.example") (str "id")
      (fun _ => .raised (str "timeout")) (fun _ => 0) 3).1 (fun j _ => rfl)
  · refine (fetch_content_exhaustion_and_success (str "https://x.example") (str "id")
      (fun i => if i < 2 then .raised (str "timeout") else .resp 200 (str "body"))
      (fun _ => 0) 3).2 2 (str "body") (by omega) ?_ (by decide)
    intro j hj
    interval_cases j <;> decide

/-- C10: a backoff sleep of `2**i + jitter` is performed after every failed
attempt `i`, including the final one — exhausting `n` attempts performs
exactly `n` sleeps, the last one even though no further attempt follows. -/
theorem fetch_content_sleeps_after_every_failure (url eid : Str)
    (outcome : Nat → FetchOutcome) (jitter : Nat → ℚ) (n : Nat)
    (h : ∀ j, j < n → attemptSucceeds (outcome j) = false) :
    (fetch_content url eid outcome jitter n).sleeps =
      (List.range n).map (fun j => (2 : ℚ) ^ j + jitter j) := by
  have := (fetchLoop_all_fail url eid outcome jitter n 0 (by simpa using h)).2.2
  simpa using this

/-- Witness for C10: three always-failing attempts with zero jitter sleep
exactly `[1, 2, 4]` seconds — three sleeps, one after the final attempt. -/
theorem fetch_content_sleeps_after_every_failure_witness :
    (fetch_content (str "https://x.example") (str "id")
      (fun _ => .raised (str "down")) (fun _ => 0) 3).sleeps = [1, 2, 4] := by
  have := fetch_content_sleeps_after_every_failure (str "https://x.example")
    (str "id") (fun _ => .raised (str "down")) (fun _ => 0) 3 (fun j _ => rfl)
  rw [this]
  norm_num [List.range_succ]

/-- The code's `x[:500] if x else ""` guard on a description is redundant:
truncating the empty string yields the empty string. -/
theorem descCollapse (d : Str) :
    (if d = [] then ([] : Str) else pyTake 500 d) = pyTake 500 d := by
  cases d <;> simp [pyTake]

/-- The `... if primary_product.features else ""` guard is redundant:
joining the empty feature list yields the empty string. -/
theorem featuresCollapse (fs : List Str) :
    (if fs = [] then ([] : Str) else pyJoin (str "; ") (fs.take 5)) =
      pyJoin (str "; ") (fs.take 5) := by
  cases fs <;> simp [pyJoin]

/-- The `... if primary_product.specifications else ""` guard is redundant:
joining the empty specification list yields the empty string. -/
theorem specsCollapse (sp : List (Str × Str)) :
    (if sp = [] then ([] : Str)
     else pyJoin (str "; ") ((sp.take 3).map (fun kv => kv.1 ++ str ": " ++ kv.2))) =
      pyJoin (str "; ") ((sp.take 3).map (fun kv => kv.1 ++ str ": " ++ kv.2)) := by
  cases sp <;> simp [pyJoin]

/-- The `len(products) > 1` guard on the additional-products summary is
redundant: with one product or none, the tail is empty anyway. -/
theorem additionalCollapse (ps : List ProductEntity) :
    (if 1 < ps.length then (ps.drop 1).map summarizeProduct else []) =
      (ps.drop 1).map summarizeProduct := by
  match ps with
  | [] => rfl
  | [p] => rfl
  | p :: q :: rest => simp

/-- C4: for every company record and timestamp, the row forwarded to the
export sink is exactly the spec's 15-field row — the 15 string fields in the
order URL, Company Name, Company Type, truncated Company Description, joined
Emails, joined Phones, joined Addresses, primary Product Name, primary
Product Category, primary Product Price (`N/A` when unset/zero), truncated
primary Product Description, top-5 Features, top-3 Specifications as
`k: v`, Additional Products joined with `" | "`, and the timestamp — and
when no primary product exists, the product fields are blank except the
price field, which reads `N/A`. -/
theorem format_for_sheets_row_contract (c : CompanyEntity) (now : Str) :
    (format_for_sheets c now).length = 15 ∧
    format_for_sheets c now = specExportRow c now ∧
    (c.products = [] →
      (format_for_sheets c now)[7]? = some [] ∧
      (format_for_sheets c now)[8]? = some [] ∧
      (format_for_sheets c now)[9]? = some (str "N/A") ∧
      (format_for_sheets c now)[10]? = some [] ∧
      (format_for_sheets c now)[11]? = some [] ∧
      (format_for_sheets c now)[12]? = some []) := by
  refine ⟨rfl, ?_, ?_⟩
  · unfold format_for_sheets specExportRow
    cases hp : c.products with
    | nil => simp [additionalCollapse, descCollapse, featuresCollapse, specsCollapse]
    | cons p rest =>
      simp [additionalCollapse, descCollapse, featuresCollapse, specsCollapse]
      constructor
      · intro h; simp [h, pyJoin]
      · cases rest <;> simp [pyJoin]
  · intro h
    simp [format_for_sheets, h]

/-- Witness for C4: a fresh company with no products yields a 15-field row
whose product fields are blank and whose price field reads `N/A`. -/
theorem format_for_sheets_row_contract_witness :
    (format_for_sheets {} []).length = 15 ∧
    (format_for_sheets {} [])[9]? = some (str "N/A") ∧
    (format_for_sheets {} [])[7]? = some [] := by
  have h := format_for_sheets_row_contract {} []
  have h3 := h.2.2 rfl
  exact ⟨h.1, h3.2.2.1, h3.1⟩

/-- Valid text is nonempty (it has at least 10 characters). -/
theorem is_valid_text_ne_nil {l : Str} (h : is_valid_text l = true) : l ≠ [] := by
  intro hl
  rw [hl] at h
  exact absurd h (by decide)

/-- The helper `applyDescription` never touches the product name. -/
theorem applyDescription_name (o : Option Str) (q : ProductEntity) :
    (applyDescription o q).product_name = q.product_name := by
  cases o with
  | none => rfl
  | some t =>
    by_cases hv : is_valid_text (clean_text t) = true <;>
      simp [applyDescription, hv]

/-- Membership in the `if product.product_name: company.products.append(...)`
guard implies a nonempty name. -/
theorem mem_guard_named (url : Str) (q p : ProductEntity)
    (hp : p ∈ if q.product_name ≠ [] then [{ q with url := url }] else []) :
    p.product_name ≠ [] := by
  by_cases hq : q.product_name ≠ []
  · rw [if_pos hq, List.mem_singleton] at hp
    subst hp
    exact hq
  · rw [if_neg hq] at hp
    exact absurd hp (List.not_mem_nil p)

/-- Every product the Apple path appends has a nonempty name. -/
theorem extract_apple_product_named (doc : ProductDoc) (url : Str)
    (p : ProductEntity) (hp : p ∈ extract_apple_product doc url) :
    p.product_name ≠ [] :=
  mem_guard_named url _ p hp

/-- Every product the Microsoft path appends has a nonempty name. -/
theorem extract_microsoft_product_named (doc : ProductDoc) (url : Str)
    (p : ProductEntity) (hp : p ∈ extract_microsoft_product doc url) :
    p.product_name ≠ [] :=
  mem_guard_named url _ p hp

/-- Every product the Samsung path appends has a nonempty name. -/
theorem extract_samsung_product_named (doc : ProductDoc) (url : Str)
    (p : ProductEntity) (hp : p ∈ extract_samsung_product doc url) :
    p.product_name ≠ [] :=
  mem_guard_named url _ p hp

/-- Every product a generic section contributes has a nonempty name (a
section whose heading does not clean to valid text is skipped). -/
theorem extract_generic_section_named (url : Str) (s : ProductSection)
    (p : ProductEntity) (hp : p ∈ extract_generic_section url s) :
    p.product_name ≠ [] := by
  simp only [extract_generic_section] at hp
  by_cases hn :
      (match s.heading with
       | some t =>
         let nm := clean_text t
         if is_valid_text nm then
           { ({} : ProductEntity) with product_name := nm }
         else ({} : ProductEntity)
       | none => ({} : ProductEntity)).product_name = []
  · rw [if_pos hn] at hp
    exact absurd hp (List.not_mem_nil p)
  · rw [if_neg hn, List.mem_singleton] at hp
    subst hp
    show (applyDescription s.description _).product_name ≠ []
    rw [applyDescription_name]
    exact hn

/-- Every product the generic path appends has a nonempty name. -/
theorem extract_generic_product_named (doc : ProductDoc) (url : Str)
    (p : ProductEntity) (hp : p ∈ extract_generic_product doc url) :
    p.product_name ≠ [] := by
  simp only [extract_generic_product, List.mem_flatten] at hp
  obtain ⟨l, hl, hpl⟩ := hp
  rw [List.mem_map] at hl
  obtain ⟨s, _, rfl⟩ := hl
  exact extract_generic_section_named url s p hpl

/-- C8: for every parsed content and URL, no extraction path ever appends a
product with an empty name to the company's product list — every product of
the result either was already present or has a nonempty name. -/
theorem product_extract_no_empty_name (doc : ProductDoc) (url : Str)
    (c : CompanyEntity) (p : ProductEntity)
    (hp : p ∈ (product_extract doc url c).products) :
    p ∈ c.products ∨ p.product_name ≠ [] := by
  have hp' : p ∈ c.products ++
      (if substrB (str "apple.com") url = true then extract_apple_product doc url
       else if substrB (str "microsoft.com") url = true then
         extract_microsoft_product doc url
       else if substrB (str "samsung.com") url = true then
         extract_samsung_product doc url
       else extract_generic_product doc url) := hp
  rcases List.mem_append.mp hp' with h | h
  · exact .inl h
  · right
    split at h
    · exact extract_apple_product_named doc url p h
    · split at h
      · exact extract_microsoft_product_named doc url p h
      · split at h
        · exact extract_samsung_product_named doc url p h
        · exact extract_generic_product_named doc url p h

/-- Witness for C8: a generic URL with no product sections appends nothing,
so a pre-existing product is found on the left of the disjunction. -/
theorem product_extract_no_empty_name_witness :
    ({ product_name := str "Widget" } : ProductEntity) ∈
        ({ products := [{ product_name := str "Widget" }] } : CompanyEntity).products ∨
      ({ product_name := str "Widget" } : ProductEntity).product_name ≠ [] :=
  product_extract_no_empty_name {} (str "https://acme.io")
    { products := [{ product_name := str "Widget" }] }
    { product_name := str "Widget" } (by decide)

/-- Reflexivity of `List.isPrefixOf`. -/
theorem isPrefixOf_self (l : Str) : l.isPrefixOf l = true := by
  induction l with
  | nil => rfl
  | cons c cs ih => simp [List.isPrefixOf, ih]

/-- Every string contains itself as a substring (so exact duplicates are in
particular rejected by the substring test). -/
theorem substrB_self (l : Str) : substrB l l = true := by
  cases l with
  | nil => rfl
  | cons c cs => simp [substrB, isPrefixOf_self]

/-- The address fold keeps its accumulator duplicate-free. -/
theorem extract_addresses_nodup_aux :
    ∀ (cands init : List Str), init.Nodup → (extract_addresses cands init).Nodup := by
  intro cands
  induction cands with
  | nil => intro init h; exact h
  | cons t rest ih =>
    intro init h
    simp only [extract_addresses, List.foldl_cons]
    apply ih
    by_cases hc : 10 < (clean_text t).length ∧
        (init.any fun addr => substrB addr (clean_text t)) = false
    · rw [if_pos hc]
      have hnotmem : clean_text t ∉ init := by
        intro hmem
        have := (List.any_eq_false.mp hc.2) _ hmem
        simp [substrB_self] at this
      exact h.append (List.nodup_singleton _)
        (fun x hx hmem => hnotmem (List.mem_singleton.mp hmem ▸ hx))
    · rw [if_neg hc]; exact h

/-- C6 amended: the address list never contains two equal strings, and a
cleaned candidate longer than 10 characters is always appended (at the end,
preserving document order) provided no stored address occurs in it as a
substring — the dedup test is substring containment, not exact-string
equality, so equality with a stored address is only a special case of what
blocks an append. -/
theorem extract_addresses_nodup_and_append (cands : List Str) :
    (extract_addresses cands []).Nodup ∧
    (∀ cand : Str, 10 < (clean_text cand).length →
      (∀ a ∈ extract_addresses cands [], substrB a (clean_text cand) = false) →
      extract_addresses (cands ++ [cand]) [] =
        extract_addresses cands [] ++ [clean_text cand]) := by
  constructor
  · exact extract_addresses_nodup_aux cands [] List.nodup_nil
  · intro cand hlen hsub
    simp only [extract_addresses, List.foldl_append, List.foldl_cons, List.foldl_nil]
    rw [if_pos]
    refine ⟨hlen, List.any_eq_false.mpr ?_⟩
    intro a ha hx
    rw [hsub a ha] at hx
    exact absurd hx (by decide)

/-- Witness for C6 amended: a second address of which the first is not a
substring is appended after it. -/
theorem extract_addresses_nodup_and_append_witness :
    (extract_addresses [str "221B Baker Street"] []).Nodup ∧
    extract_addresses
        ([str "221B Baker Street"] ++ [str "1600 Amphitheatre Parkway"]) [] =
      extract_addresses [str "221B Baker Street"] [] ++
        [clean_text (str "1600 Amphitheatre Parkway")] := by
  have h := extract_addresses_nodup_and_append [str "221B Baker Street"]
  exact ⟨h.1, h.2 (str "1600 Amphitheatre Parkway") (by decide) (by decide)⟩

/-- A leading whitespace character is skipped by the split. -/
theorem pySplit_cons_space {c : Char} (cs : Str) (h : isSpaceChar c = true) :
    pySplit (c :: cs) = pySplit cs := by
  simp [pySplit, pySplitAux, h]

/-- The split worker with a nonempty current word: the word is completed by
the next maximal non-space run, and scanning continues after it. -/
theorem pySplitAux_ne :
    ∀ (l acc : Str), acc ≠ [] →
      pySplitAux l acc =
        (acc.reverse ++ l.takeWhile (fun d => !isSpaceChar d)) ::
          pySplit (l.dropWhile (fun d => !isSpaceChar d)) := by
  intro l
  induction l with
  | nil =>
    intro acc h
    obtain ⟨a, as, rfl⟩ : ∃ a as, acc = a :: as := by
      cases acc with
      | nil => exact absurd rfl h
      | cons a as => exact ⟨a, as, rfl⟩
    simp [pySplitAux, pySplit]
  | cons c cs ih =>
    intro acc h
    obtain ⟨a, as, rfl⟩ : ∃ a as, acc = a :: as := by
      cases acc with
      | nil => exact absurd rfl h
      | cons a as => exact ⟨a, as, rfl⟩
    by_cases hc : isSpaceChar c = true
    · simp [pySplitAux, hc, List.takeWhile_cons, List.dropWhile_cons,
        pySplit_cons_space cs hc, pySplit]
    · rw [show pySplitAux (c :: cs) (a :: as) = pySplitAux cs (c :: a :: as) from by
        simp [pySplitAux, hc]]
      rw [ih (c :: a :: as) (by simp)]
      simp [List.takeWhile_cons, List.dropWhile_cons, hc, List.append_assoc]

/-- A leading non-space character opens a word: the split is the maximal
non-space run followed by the split of the rest. -/
theorem pySplit_cons_word {c : Char} (cs : Str) (h : isSpaceChar c = false) :
    pySplit (c :: cs) =
      (c :: cs.takeWhile (fun d => !isSpaceChar d)) ::
        pySplit (cs.dropWhile (fun d => !isSpaceChar d)) := by
  show pySplitAux (c :: cs) [] = _
  rw [show pySplitAux (c :: cs) [] = pySplitAux cs [c] from by simp [pySplitAux, h]]
  rw [pySplitAux_ne cs [c] (by simp)]
  simp

/-- Soundness of the split worker: every produced word is nonempty, and each
of its characters is a non-space character of the input or of the
accumulator. -/
theorem pySplitAux_sound :
    ∀ (l acc : Str), (∀ ch ∈ acc, isSpaceChar ch = false) →
      ∀ w ∈ pySplitAux l acc, w ≠ [] ∧
        ∀ ch ∈ w, isSpaceChar ch = false ∧ (ch ∈ l ∨ ch ∈ acc) := by
  intro l
  induction l with
  | nil =>
    intro acc hacc w hw
    cases acc with
    | nil => simp [pySplitAux] at hw
    | cons a as =>
      simp only [pySplitAux] at hw
      rw [if_neg (by simp)] at hw
      rw [List.mem_singleton] at hw
      subst hw
      refine ⟨by simp, ?_⟩
      intro ch hch
      rw [List.mem_reverse] at hch
      exact ⟨hacc ch hch, .inr hch⟩
  | cons c cs ih =>
    intro acc hacc w hw
    by_cases hc : isSpaceChar c = true
    · cases acc with
      | nil =>
        rw [show pySplitAux (c :: cs) [] = pySplitAux cs [] from by
          simp [pySplitAux, hc]] at hw
        have := ih [] (by simp) w hw
        refine ⟨this.1, fun ch hch => ⟨(this.2 ch hch).1, ?_⟩⟩
        rcases (this.2 ch hch).2 with h | h
        · exact .inl (by simp [h])
        · simp at h
      | cons a as =>
        rw [show pySplitAux (c :: cs) (a :: as) =
            (a :: as).reverse :: pySplitAux cs [] from by simp [pySplitAux, hc]] at hw
        rcases List.mem_cons.mp hw with rfl | hw
        · refine ⟨by simp, ?_⟩
          intro ch hch
          rw [List.mem_reverse] at hch
          exact ⟨hacc ch hch, .inr hch⟩
        · have := ih [] (by simp) w hw
          refine ⟨this.1, fun ch hch => ⟨(this.2 ch hch).1, ?_⟩⟩
          rcases (this.2 ch hch).2 with h | h
          · exact .inl (by simp [h])
          · simp at h
    · rw [show pySplitAux (c :: cs) acc = pySplitAux cs (c :: acc) from by
        simp [pySplitAux, hc]] at hw
      have hacc' : ∀ ch ∈ c :: acc, isSpaceChar ch = false := by
        intro ch hch
        rcases List.mem_cons.mp hch with rfl | hch
        · simpa using hc
        · exact hacc ch hch
      have := ih (c :: acc) hacc' w hw
      refine ⟨this.1, fun ch hch => ⟨(this.2 ch hch).1, ?_⟩⟩
      rcases (this.2 ch hch).2 with h | h
      · exact .inl (by simp [h])
      · rcases List.mem_cons.mp h with rfl | h
        · exact .inl (by simp)
        · exact .inr h

/-- Soundness of `pySplit`: every word is nonempty, space-free, and drawn
from the input's characters. -/
theorem pySplit_sound (l : Str) :
    ∀ w ∈ pySplit l, w ≠ [] ∧ ∀ ch ∈ w, isSpaceChar ch = false ∧ ch ∈ l := by
  intro w hw
  have h := pySplitAux_sound l [] (by simp) w hw
  refine ⟨h.1, fun ch hch => ⟨(h.2 ch hch).1, ?_⟩⟩
  rcases (h.2 ch hch).2 with h' | h'
  · exact h'
  · simp at h'

/-- Splitting a space-free word followed by nothing or by whitespace yields
the word and the split of the rest. -/
theorem pySplit_word_append (w rest : Str) (hw : w ≠ [])
    (hsp : ∀ c ∈ w, isSpaceChar c = false)
    (hrest : rest = [] ∨ ∃ d t, rest = d :: t ∧ isSpaceChar d = true) :
    pySplit (w ++ rest) = w :: pySplit rest := by
  obtain ⟨c, w', rfl⟩ : ∃ c w', w = c :: w' := by
    cases w with
    | nil => exact absurd rfl hw
    | cons c w' => exact ⟨c, w', rfl⟩
  have hc : isSpaceChar c = false := hsp c (by simp)
  have hw' : ∀ d ∈ w', (fun d => !isSpaceChar d) d = true := by
    intro d hd
    simp [hsp d (by simp [hd])]
  have htake : rest.takeWhile (fun d => !isSpaceChar d) = [] := by
    rcases hrest with rfl | ⟨d, t, rfl, hd⟩
    · rfl
    · simp [List.takeWhile_cons, hd]
  have hdrop : rest.dropWhile (fun d => !isSpaceChar d) = rest := by
    rcases hrest with rfl | ⟨d, t, rfl, hd⟩
    · rfl
    · simp [List.dropWhile_cons, hd]
  rw [List.cons_append, pySplit_cons_word _ hc,
    List.takeWhile_append_of_pos hw', List.dropWhile_append_of_pos hw',
    htake, hdrop, List.append_nil]

/-- Round trip: splitting the space-join of nonempty space-free words
recovers exactly the words. -/
theorem pySplit_pyJoin :
    ∀ ws : List Str, (∀ w ∈ ws, w ≠ [] ∧ ∀ c ∈ w, isSpaceChar c = false) →
      pySplit (pyJoin [' '] ws) = ws := by
  intro ws
  induction ws with
  | nil => intro _; rfl
  | cons w ws ih =>
    intro h
    cases ws with
    | nil =>
      have := pySplit_word_append w [] (h w (by simp)).1
        (fun c hc => (h w (by simp)).2 c hc) (.inl rfl)
      simpa [pyJoin] using this
    | cons w2 t =>
      have hjoin : pyJoin [' '] (w :: w2 :: t) = w ++ (' ' :: pyJoin [' '] (w2 :: t)) := by
        simp [pyJoin]
      rw [hjoin, pySplit_word_append w _ (h w (by simp)).1
        (fun c hc => (h w (by simp)).2 c hc) (.inr ⟨' ', _, rfl, rfl⟩)]
      rw [pySplit_cons_space _ (show isSpaceChar ' ' = true from rfl),
        ih (fun x hx => h x (by simp [hx]))]

/-- Characters survive `pyStrip` only if they were in the input. -/
theorem mem_pyStrip {c : Char} {l : Str} (h : c ∈ pyStrip l) : c ∈ l := by
  unfold pyStrip at h
  rw [List.mem_reverse] at h
  have h2 := (List.dropWhile_suffix isSpaceChar).sublist.subset h
  rw [List.mem_reverse] at h2
  exact (List.dropWhile_suffix isSpaceChar).sublist.subset h2

/-- Every character of a cleaned string is in the allow-list. -/
theorem mem_clean_text_allowed {c : Char} {l : Str} (h : c ∈ clean_text l) :
    isAllowedChar c = true := by
  unfold clean_text at h
  exact (List.mem_filter.mp (mem_pyStrip h)).2

/-- Characters of a space-join are the space or characters of the words. -/
theorem mem_pyJoin_space {c : Char} :
    ∀ {ws : List Str}, c ∈ pyJoin [' '] ws → c = ' ' ∨ ∃ w ∈ ws, c ∈ w := by
  intro ws
  induction ws with
  | nil => intro h; simp [pyJoin] at h
  | cons w ws ih =>
    intro h
    cases ws with
    | nil => exact .inr ⟨w, by simp, by simpa [pyJoin] using h⟩
    | cons w2 t =>
      rw [show pyJoin [' '] (w :: w2 :: t) = w ++ (' ' :: pyJoin [' '] (w2 :: t))
        from by simp [pyJoin]] at h
      rcases List.mem_append.mp h with h | h
      · exact .inr ⟨w, by simp, h⟩
      · rcases List.mem_cons.mp h with rfl | h
        · exact .inl rfl
        · rcases ih h with h | ⟨w', hw', hc⟩
          · exact .inl h
          · exact .inr ⟨w', by simp [hw'], hc⟩

/-- The character strip is the identity on a space-join of allowed words
(the space itself is in the allow-list). -/
theorem filter_allowed_pyJoin (ws : List Str)
    (h : ∀ w ∈ ws, ∀ c ∈ w, isAllowedChar c = true) :
    List.filter isAllowedChar (pyJoin [' '] ws) = pyJoin [' '] ws := by
  rw [List.filter_eq_self]
  intro a ha
  rcases mem_pyJoin_space ha with rfl | ⟨w, hw, hc⟩
  · decide
  · exact h w hw a hc

/-- The strip `pyStrip` is the identity on strings that start and end with a non-space
character. -/
theorem pyStrip_eq_self {l : Str}
    (h1 : ∃ c t, l = c :: t ∧ isSpaceChar c = false)
    (h2 : ∃ t c, l = t ++ [c] ∧ isSpaceChar c = false) :
    pyStrip l = l := by
  obtain ⟨c, t, hl, hc⟩ := h1
  obtain ⟨t2, c2, hl2, hc2⟩ := h2
  unfold pyStrip
  have hdrop1 : l.dropWhile isSpaceChar = l := by
    rw [hl, List.dropWhile_cons, hc]
    simp
  have hdrop2 : l.reverse.dropWhile isSpaceChar = l.reverse := by
    rw [hl2, List.reverse_append]
    simp only [List.reverse_singleton, List.singleton_append, List.dropWhile_cons, hc2]
    simp
  rw [hdrop1, hdrop2, List.reverse_reverse]

/-- The space-join of nonempty words starts with a character of one of the
words. -/
theorem pyJoin_head :
    ∀ (ws : List Str), ws ≠ [] → (∀ w ∈ ws, w ≠ []) →
      ∃ c t, pyJoin [' '] ws = c :: t ∧ ∃ w ∈ ws, c ∈ w := by
  intro ws hne h
  obtain ⟨w, rest, rfl⟩ : ∃ w rest, ws = w :: rest := by
    cases ws with
    | nil => exact absurd rfl hne
    | cons w rest => exact ⟨w, rest, rfl⟩
  obtain ⟨c, w', rfl⟩ : ∃ c w', w = c :: w' := by
    cases hw : w with
    | nil => exact absurd hw (h w (by simp))
    | cons c w' => exact ⟨c, w', rfl⟩
  cases rest with
  | nil => exact ⟨c, w', by simp [pyJoin], c :: w', by simp, by simp⟩
  | cons w2 t =>
    refine ⟨c, w' ++ (' ' :: pyJoin [' '] (w2 :: t)), ?_, c :: w', by simp, by simp⟩
    simp [pyJoin]

/-- The space-join of nonempty words ends with a character of one of the
words. -/
theorem pyJoin_last :
    ∀ (ws : List Str), ws ≠ [] → (∀ w ∈ ws, w ≠ []) →
      ∃ t c, pyJoin [' '] ws = t ++ [c] ∧ ∃ w ∈ ws, c ∈ w := by
  intro ws
  induction ws with
  | nil => intro hne _; exact absurd rfl hne
  | cons w rest ih =>
    intro _ h
    cases rest with
    | nil =>
      have hw : w ≠ [] := h w (by simp)
      refine ⟨w.dropLast, w.getLast hw, ?_, w, by simp, List.getLast_mem hw⟩
      simp [pyJoin, List.dropLast_append_getLast hw]
    | cons w2 t =>
      obtain ⟨t', c, hj, w', hw', hc⟩ :=
        ih (by simp) (fun x hx => h x (by simp [hx]))
      refine ⟨w ++ ' ' :: t', c, ?_, w', by simp [hw'], hc⟩
      rw [show pyJoin [' '] (w :: w2 :: t) = w ++ (' ' :: pyJoin [' '] (w2 :: t))
        from by simp [pyJoin], hj]
      simp

/-- Cleaning fixes the space-join of nonempty, space-free, allowed
words. -/
theorem clean_text_pyJoin_fixed (ws : List Str)
    (h : ∀ w ∈ ws, w ≠ [] ∧ ∀ c ∈ w, isSpaceChar c = false ∧ isAllowedChar c = true) :
    clean_text (pyJoin [' '] ws) = pyJoin [' '] ws := by
  unfold clean_text
  rw [pySplit_pyJoin ws (fun w hw => ⟨(h w hw).1, fun c hc => ((h w hw).2 c hc).1⟩)]
  rw [filter_allowed_pyJoin ws (fun w hw c hc => ((h w hw).2 c hc).2)]
  cases ws with
  | nil => rfl
  | cons w t =>
    apply pyStrip_eq_self
    · obtain ⟨c, t', hj, w', hw', hc⟩ :=
        pyJoin_head (w :: t) (by simp) (fun x hx => (h x hx).1)
      exact ⟨c, t', hj, ((h w' hw').2 c hc).1⟩
    · obtain ⟨t', c, hj, w', hw', hc⟩ :=
        pyJoin_last (w :: t) (by simp) (fun x hx => (h x hx).1)
      exact ⟨t', c, hj, ((h w' hw').2 c hc).1⟩

/-- On an input whose characters are all allowed, `clean_text` is exactly
split-and-rejoin. -/
theorem clean_text_eq_pyJoin (x : Str)
    (hall : ∀ c ∈ x, isAllowedChar c = true) :
    clean_text x = pyJoin [' '] (pySplit x) := by
  unfold clean_text
  rw [filter_allowed_pyJoin (pySplit x)
    (fun w hw c hc => hall c ((pySplit_sound x w hw).2 c hc).2)]
  cases hws : pySplit x with
  | nil => rfl
  | cons w t =>
    apply pyStrip_eq_self
    · obtain ⟨c, t', hj, w', hw', hc⟩ :=
        pyJoin_head (w :: t) (by simp)
          (fun x' hx' => (pySplit_sound x x' (hws ▸ hx')).1)
      exact ⟨c, t', hj, ((pySplit_sound x w' (hws ▸ hw')).2 c hc).1⟩
    · obtain ⟨t', c, hj, w', hw', hc⟩ :=
        pyJoin_last (w :: t) (by simp)
          (fun x' hx' => (pySplit_sound x x' (hws ▸ hx')).1)
      exact ⟨t', c, hj, ((pySplit_sound x w' (hws ▸ hw')).2 c hc).1⟩

/-- C3 amended: `clean_text` is idempotent from the second application on —
for every string `s`, `clean(clean(clean(s))) = clean(clean(s))`.  A single
application need not be a fixed point (see the counterexample): stripping a
disallowed character can merge the single spaces around it into a double
space, which only the next application collapses. -/
theorem clean_text_stabilizes (s : Str) :
    clean_text (clean_text (clean_text s)) = clean_text (clean_text s) := by
  have hall : ∀ c ∈ clean_text s, isAllowedChar c = true :=
    fun c hc => mem_clean_text_allowed hc
  have h1 : clean_text (clean_text s) = pyJoin [' '] (pySplit (clean_text s)) :=
    clean_text_eq_pyJoin (clean_text s) hall
  have h2 : clean_text (pyJoin [' '] (pySplit (clean_text s))) =
      pyJoin [' '] (pySplit (clean_text s)) := by
    apply clean_text_pyJoin_fixed
    intro w hw
    have hs := pySplit_sound (clean_text s) w hw
    exact ⟨hs.1, fun c hc => ⟨(hs.2 c hc).1, hall c (hs.2 c hc).2⟩⟩
  rw [h1, h2]

end WebStryker
